import Mathlib

/-!
Verification development for the ML-artifact trust-evaluation core:
the parallel scorer with weighted net score (`src/scoring.py`), the ingest
quality gate (`src/ingest.py`), the sandboxed reproducibility checker
(`src/metrics/Reproducibility.py`) and the review-provenance (reviewedness)
miner (`src/metrics/reviewedness.py`).

Scores are modelled as rationals (`ℚ`); the Python floats carry exact
decimal values at every point the claims touch.  External effects
(subprocess execution, git clone / git log, the filesystem) are modelled as
oracle records over which the theorems quantify.
-/

namespace Registry

/-! ## String primitives

Python string operations are embedded as structural recursions over
character lists (Python strings are sequences of code points, exactly
`List Char`), so that every definition evaluates on concrete inputs. -/

/-- Python `str.strip()` on a character list. -/
def stripChars (l : List Char) : List Char :=
  ((l.dropWhile Char.isWhitespace).reverse.dropWhile Char.isWhitespace).reverse

/-- Python `s.strip()`. -/
def pyStrip (s : String) : String := String.mk (stripChars s.data)

/-- Split a character list on every occurrence of a separator character
(Python `s.split(sep)` for a one-character separator, keeping empty parts). -/
def splitOnCharList (sep : Char) : List Char → List (List Char)
  | [] => [[]]
  | c :: rest =>
    match splitOnCharList sep rest with
    | [] => if c == sep then [[], []] else [[c]]
    | h :: t => if c == sep then [] :: h :: t else (c :: h) :: t

/-- Python `s.split(sep)` for a one-character separator. -/
def strSplitOnChar (sep : Char) (s : String) : List String :=
  (splitOnCharList sep s.data).map String.mk

/-- Python `s.endswith(pat)`. -/
def strEndsWith (s pat : String) : Bool := pat.data.isSuffixOf s.data

/-- Python `s.startswith(pat)`. -/
def strStartsWith (s pat : String) : Bool := pat.data.isPrefixOf s.data

/-- Python `c in s` for a single character. -/
def strContainsChar (s : String) (c : Char) : Bool := s.data.contains c

/-- Python `s.lower()` (ASCII case folding, which is all the source needs). -/
def strToLower (s : String) : String := String.mk (s.data.map Char.toLower)

/-- Python `s[:n]`. -/
def strTake (s : String) (n : ℕ) : String := String.mk (s.data.take n)

/-- Accumulator pass of Python `s.split()` (split on whitespace runs,
discarding empties). -/
def splitWsAux : List Char → List Char → List (List Char)
  | [], acc => if acc = [] then [] else [acc.reverse]
  | c :: t, acc =>
    if c.isWhitespace then
      if acc = [] then splitWsAux t [] else acc.reverse :: splitWsAux t []
    else splitWsAux t (c :: acc)

/-- Python `s.split()` (no separator). -/
def pySplitWs (s : String) : List String :=
  (splitWsAux s.data []).map String.mk

/-- Fuelled left-to-right non-overlapping replacement; fuel equal to the
input length suffices because every step consumes at least one character. -/
def replaceFuel (pat rep : List Char) : ℕ → List Char → List Char
  | 0, l => l
  | _, [] => []
  | fuel + 1, c :: t =>
    if pat.isPrefixOf (c :: t) then
      rep ++ replaceFuel pat rep fuel ((c :: t).drop pat.length)
    else c :: replaceFuel pat rep fuel t

/-- Python `s.replace(pat, rep)` for a nonempty pattern. -/
def pyReplace (s pat rep : String) : String :=
  if pat.data = [] then s
  else String.mk (replaceFuel pat.data rep.data s.data.length s.data)

/-! ## Data model (`src/models.py`) -/

inductive URLCategory where
  | MODEL
  | DATASET
  | CODE
deriving Repr, DecidableEq

/-- `ParsedURL` from `src/models.py`. -/
structure ParsedURL where
  url : String
  category : URLCategory
  name : String
  platform : String
  owner : Option String := none
  repo : Option String := none
deriving Repr, DecidableEq

/-- `MetricResult` from `src/models.py` (the plain record; the pydantic
field validators are modelled by `mkMetricResult` below). -/
structure MetricResult where
  score : ℚ
  latency : ℤ
deriving Repr, DecidableEq

/-- Pydantic validation of `MetricResult`: `score: float = Field(..., ge=0.0, le=1.0)`
and `latency: int = Field(..., ge=0)` (src/models.py lines 33-37).  Constructing a
`MetricResult` outside these bounds raises a `ValidationError`, modelled as
`Except.error`. -/
def mkMetricResult (score : ℚ) (latency : ℤ) : Except String MetricResult :=
  if 0 ≤ score ∧ score ≤ 1 ∧ 0 ≤ latency then Except.ok ⟨score, latency⟩
  else Except.error "MetricResult validation failed"

/-- `ModelContext` from `src/models.py`.  `hf_info` / `config_data` are
`Dict[str, Any]` caches never read by the components verified here; they are
modelled opaquely. -/
structure ModelContext where
  model_url : ParsedURL
  datasets : List ParsedURL := []
  code_repos : List ParsedURL := []
  hf_info : Option Unit := none
  readme_content : Option String := none
  config_data : Option Unit := none

/-! ## Parallel scorer (`src/scoring.py`) -/

/-- `weights.get(metric_name, 0.0)` on the `metric_weights` table. -/
def weightOf (weights : List (String × ℚ)) (nm : String) : ℚ :=
  ((weights.find? (fun p => p.1 == nm)).map (fun p => p.2)).getD 0

/-- The `metric_weights` table of `MetricScorer._get_default_config`. -/
def defaultMetricWeights : List (String × ℚ) :=
  [("ramp_up_time", 3/20), ("bus_factor", 1/10), ("performance_claims", 3/20),
   ("license", 1/10), ("size_score", 3/20), ("dataset_and_code_score", 3/20),
   ("dataset_quality", 1/10), ("code_quality", 1/10), ("reproducibility", 1/10),
   ("reviewedness", 1/10), ("treescore", 0)]

/-- One iteration of the accumulation loop in `MetricScorer._calculate_net_score`:
skip `*_latency` keys, skip not-applicable (negative) scores, otherwise add
`score * weight` to `total_score` and `weight` to `total_weight`. -/
def netStep (weights : List (String × ℚ)) (acc : ℚ × ℚ) (p : String × MetricResult) :
    ℚ × ℚ :=
  if strEndsWith p.1 "_latency" then acc
  else if p.2.score < 0 then acc
  else (acc.1 + p.2.score * weightOf weights p.1, acc.2 + weightOf weights p.1)

/-- The `(total_score, total_weight)` accumulation of `_calculate_net_score`. -/
def netScoreLoop (weights : List (String × ℚ)) (rs : List (String × MetricResult)) :
    ℚ × ℚ :=
  rs.foldl (netStep weights) (0, 0)

/-- The entries of `metric_results` that are neither latency fields nor
not-applicable sentinels — exactly the entries both loops of
`_calculate_net_score` keep (`score < 0` skipped, i.e. `score >= 0` kept). -/
def applicableOf (rs : List (String × MetricResult)) : List (String × MetricResult) :=
  rs.filter (fun p => !(strEndsWith p.1 "_latency") && decide (0 ≤ p.2.score))

/-- `present_scores` of the zero-total-weight fallback branch. -/
def presentScores (rs : List (String × MetricResult)) : List ℚ :=
  (applicableOf rs).map (fun p => p.2.score)

/-- `MetricScorer._calculate_net_score` (src/scoring.py lines 241-274). -/
def calculateNetScore (weights : List (String × ℚ))
    (rs : List (String × MetricResult)) : ℚ :=
  let st := netScoreLoop weights rs
  let net : ℚ :=
    if st.2 = 0 then (presentScores rs).sum / ((max (presentScores rs).length 1 : ℕ) : ℚ)
    else st.1 / st.2
  max 0 (min 1 net)

/-- The per-metric conversion at the Scorer boundary in
`MetricScorer._compute_metrics_parallel`: an exceptional outcome becomes
`MetricResult(score=0.0, latency=0)`, a `MetricResult` passes through. -/
def defaultOnError : Except String MetricResult → MetricResult
  | Except.error _ => ⟨0, 0⟩
  | Except.ok r => r

/-- `MetricScorer._compute_metrics_parallel` after the `asyncio.gather(...,
return_exceptions=True)` join: each metric's outcome (normal result or raised
exception) is converted independently; no exception escapes. -/
def computeMetricsParallel (outcomes : List (String × Except String MetricResult)) :
    List (String × MetricResult) :=
  outcomes.map (fun p => (p.1, defaultOnError p.2))

/-! ## Ingest quality gate (`src/ingest.py`) -/

/-- `INGEST_QUALITY_GATE_METRICS` (src/ingest.py lines 22-32). -/
def ingestQualityGateMetrics : List (String × ℚ) :=
  [("reproducibility", 1/2), ("code_quality", 1/2), ("license", 1/2),
   ("dataset_quality", 1/2), ("ramp_up_time", 1/2), ("bus_factor", 1/2),
   ("performance_claims", 1/2), ("dataset_and_code_score", 1/2),
   ("reviewedness", 1/2)]

/-- Python's banker's rounding to an integer (`round` ties-to-even). -/
def roundHalfEven (q : ℚ) : ℤ :=
  let f := ⌊q⌋
  let r := q - f
  if r < 1/2 then f
  else if 1/2 < r then f + 1
  else if f % 2 = 0 then f else f + 1

/-- Python `round(q, 3)` on the exact rational value. -/
def pythonRound3 (q : ℚ) : ℚ := ((roundHalfEven (q * 1000) : ℤ) : ℚ) / 1000

/-- One entry of the `failing_metrics` list built by
`IngestValidator._apply_quality_gate`; field presence differences between the
"metric missing" dict and the "below threshold" dict are modelled with
`Option` fields. -/
structure FailingEntry where
  metric : String
  score : Option ℚ
  required : ℚ
  gap : Option ℚ
  reason : Option String
deriving Repr, DecidableEq

/-- The body of the per-metric loop of `_apply_quality_gate`
(src/ingest.py lines 137-163): `getattr` miss records a "Metric not
available" entry, score `-1` is skipped (not applicable), a score strictly
below threshold records an entry with the rounded gap, anything else passes
silently. -/
def gateEntryFor (scores : String → Option ℚ) (p : String × ℚ) : Option FailingEntry :=
  match scores p.1 with
  | none => some ⟨p.1, none, p.2, none, some "Metric not available"⟩
  | some s =>
    if s = -1 then none
    else if s < p.2 then
      some ⟨p.1, some (pythonRound3 s), p.2, some (pythonRound3 (s - p.2)), none⟩
    else none

/-- `IngestValidator._apply_quality_gate` (src/ingest.py lines 119-168):
returns `(passes, failing_metrics)` with `passes = (len(failing_metrics) == 0)`. -/
def applyQualityGate (scores : String → Option ℚ) : Bool × List FailingEntry :=
  let failing := ingestQualityGateMetrics.filterMap (gateEntryFor scores)
  (failing.isEmpty, failing)

/-! ## Review-provenance miner (`src/metrics/reviewedness.py`)

String-processing helpers used by `_parse_git_log_output` and
`_is_reviewed_commit` are embedded as small character scanners.  The regex
pattern `#(\d+)` (and friends) reduce to checking a `#` immediately followed
by a digit at some position of the message, matching `re.search` semantics. -/

/-- Does the predicate match at some position (suffix) of the character list?
This is `re.search`: try the pattern at every start position, left to right. -/
def scanAny (p : List Char → Bool) : List Char → Bool
  | [] => p []
  | l@(_ :: t) => p l || scanAny p t

/-- Match of `#(\d+)` at the current position. -/
def matchHashNum : List Char → Bool
  | '#' :: d :: _ => d.isDigit
  | _ => false

/-- After `\s*`, match `#(\d+)` at the current position. -/
def wsStarHashNum : List Char → Bool
  | [] => false
  | l@(c :: rest) => if c.isWhitespace then wsStarHashNum rest else matchHashNum l

/-- Match of `PR\s*#(\d+)` (case-insensitive) at the current position. -/
def matchPRNum : List Char → Bool
  | p :: r :: rest =>
    (p == 'P' || p == 'p') && (r == 'R' || r == 'r') && wsStarHashNum rest
  | _ => false

/-- Case-insensitive literal match, returning the remaining characters. -/
def matchLitCI : List Char → List Char → Option (List Char)
  | [], l => some l
  | _ :: _, [] => none
  | p :: ps, c :: cs => if p.toLower == c.toLower then matchLitCI ps cs else none

/-- Match of `Merge pull request #(\d+)` (case-insensitive) at the current
position. -/
def matchMergePRNum (l : List Char) : Bool :=
  match matchLitCI ("Merge pull request #".toList) l with
  | some (d :: _) => d.isDigit
  | _ => false

/-- `\d+\)`: one or more digits followed by a closing parenthesis. -/
def digitsThenParen : List Char → Bool
  | [] => false
  | c :: rest => c.isDigit && (rest.head? == some ')' || digitsThenParen rest)

/-- Match of `\(#(\d+)\)` at the current position. -/
def matchParenNum : List Char → Bool
  | '(' :: '#' :: rest => digitsThenParen rest
  | _ => false

/-- `ReviewednessMetric._is_reviewed_commit`: any of the four PR-reference
regexes matches the commit message, or the message starts with "merge"
(case-insensitive). -/
def isReviewedCommit (msg : String) : Bool :=
  let cs := msg.data
  scanAny matchHashNum cs || scanAny matchPRNum cs || scanAny matchMergePRNum cs
    || scanAny matchParenNum cs || strStartsWith (strToLower msg) "merge"

/-- Python `line.split('|', 1)` (maxsplit 1), as the pair
(before first bar, after first bar). -/
def splitFirstBar (l : String) : String × String :=
  match l.data.span (fun c => !(c == '|')) with
  | (before, []) => (String.mk before, "")
  | (before, _ :: after) => (String.mk before, String.mk after)

/-- Digit run continuation for Python `int()`: digits with single
underscores allowed between digits. -/
def parseDigRest (acc : ℕ) : List Char → Option ℕ
  | [] => some acc
  | '_' :: c :: rest =>
    if c.isDigit then parseDigRest (acc * 10 + (c.toNat - 48)) rest else none
  | c :: rest =>
    if c.isDigit then parseDigRest (acc * 10 + (c.toNat - 48)) rest else none

/-- Nonempty digit run for Python `int()`. -/
def parseDigits : List Char → Option ℕ
  | [] => none
  | c :: rest => if c.isDigit then parseDigRest (c.toNat - 48) rest else none

/-- Python `int(s)`: optional surrounding whitespace, optional sign, digits;
`none` models the `ValueError` branch. -/
def pyInt (s : String) : Option ℤ :=
  match stripChars s.data with
  | '+' :: rest => (parseDigits rest).map (fun n => (n : ℤ))
  | '-' :: rest => (parseDigits rest).map (fun n => -(n : ℤ))
  | cs => (parseDigits cs).map (fun n => (n : ℤ))

/-- `WEIGHT_EXTENSIONS` (src/metrics/reviewedness.py lines 19-23). -/
def weightExtensions : List String :=
  [".pt", ".pth", ".bin", ".safetensors", ".h5", ".pb", ".onnx", ".tflite",
   ".ckpt", ".pkl", ".pickle", ".npz", ".npy", ".weights"]

/-- `CODE_EXTENSIONS` (src/metrics/reviewedness.py lines 26-31). -/
def codeExtensions : List String :=
  [".py", ".js", ".ts", ".jsx", ".tsx", ".java", ".cpp", ".c", ".h", ".hpp",
   ".go", ".rs", ".rb", ".php", ".swift", ".kt", ".scala", ".cs", ".r", ".m",
   ".sh", ".yaml", ".yml", ".json", ".toml", ".xml"]

/-- `MAX_CODE_FILE_SIZE = 10 * 1024 * 1024`. -/
def maxCodeFileSize : ℕ := 10 * 1024 * 1024

/-- `weight_dirs` of `_is_code_file`. -/
def weightDirs : List String := ["models", "weights", "checkpoints", "model_weights"]

/-- Index of the last `.` in a name, if any. -/
def rfindDotAux : List Char → ℕ → Option ℕ → Option ℕ
  | [], _, best => best
  | c :: rest, i, best => rfindDotAux rest (i + 1) (if c = '.' then some i else best)

/-- `pathlib.PurePath(filename).suffix`: the extension of the final path
component, nonempty only when the last dot is neither the first nor the last
character of the name. -/
def pathSuffix (filename : String) : String :=
  let nm := (strSplitOnChar '/' filename).getLastD ""
  let cs := nm.data
  match rfindDotAux cs 0 none with
  | some i => if 0 < i ∧ i < cs.length - 1 then String.mk (cs.drop i) else ""
  | none => ""

/-- Outcome of the `git log` subprocess invocation in `_analyze_git_history`
(external world): completion with an exit code and captured output, the 60s
timeout, a missing `git` binary, or some other raised error. -/
inductive GitLogOutcome where
  | completed (exitCode : ℤ) (stdout : String) (stderr : String)
  | timedOut
  | toolMissing
  | raised (msg : String)

/-- The external collaborators of the reviewedness metric.
`cloneRepo` models `GitInspector.clone_repo` — *modelled from the spec*:
`GitInspector` (`src/git_inspect.py`) is not under `src/`; per spec §4.5 it
clones the repository to an ephemeral location and returns its path, or fails
(`none`), and `cleanup` removes every clone it created.  `fileSize` models
`Path.exists`/`Path.stat` in `_is_code_file` (`none` = missing file or
`OSError`).  `gitLog` models the `git log --all --numstat` subprocess. -/
structure GitEnv where
  cloneRepo : ParsedURL → Option String
  gitLog : String → GitLogOutcome
  fileSize : String → Option ℕ

/-- `ReviewednessMetric._is_code_file`: weight extensions are excluded, known
code extensions are included unless the file exists and exceeds 10 MB; all
other extensions fall through to `return False` (the weight-directory check
also returns `False`, as in the source). -/
def isCodeFileF (fileSize : String → Option ℕ) (repoPath filename : String) : Bool :=
  let ext := strToLower (pathSuffix filename)
  if weightExtensions.contains ext then false
  else if codeExtensions.contains ext then
    match fileSize (repoPath ++ "/" ++ filename) with
    | some sz => !(decide (maxCodeFileSize < sz))
    | none => true
  else if ((strSplitOnChar '/' filename).any (fun part => weightDirs.contains part)) then
    false
  else false

/-- The `for line in lines` loop of `_parse_git_log_output`, carrying
`(reviewed_lines, total_lines, current_is_reviewed)`. -/
def parseGitLines (isCode : String → Bool) :
    List String → ℤ → ℤ → Bool → ℤ × ℤ
  | [], reviewed, total, _ => (reviewed, total)
  | line :: rest, reviewed, total, cur =>
    let l := pyStrip line
    if l == "" then parseGitLines isCode rest reviewed total cur
    else if strContainsChar l '|' && !(strContainsChar l '\t') then
      parseGitLines isCode rest reviewed total (isReviewedCommit (splitFirstBar l).2)
    else if strContainsChar l '\t' then
      match strSplitOnChar '\t' l with
      | addedStr :: _ :: filename :: _ =>
        if !(isCode filename) then parseGitLines isCode rest reviewed total cur
        else
          match (if addedStr == "-" then some 0 else pyInt addedStr) with
          | none => parseGitLines isCode rest reviewed total cur
          | some a =>
            parseGitLines isCode rest (if cur then reviewed + a else reviewed)
              (total + a) cur
      | _ => parseGitLines isCode rest reviewed total cur
    else parseGitLines isCode rest reviewed total cur

/-- `ReviewednessMetric._parse_git_log_output` (src/metrics/reviewedness.py
lines 143-194). -/
def parseGitLogOutput (fileSize : String → Option ℕ) (repoPath gitOutput : String) :
    ℤ × ℤ :=
  parseGitLines (isCodeFileF fileSize repoPath)
    (strSplitOnChar '\n' (pyStrip gitOutput)) 0 0 false

/-- The added-lines value the parser would extract from one git-log line, if
any; used to state well-formedness of a git-log output. -/
def lineAdded (line : String) : Option ℤ :=
  let l := pyStrip line
  if l == "" then none
  else if strContainsChar l '|' && !(strContainsChar l '\t') then none
  else if strContainsChar l '\t' then
    match strSplitOnChar '\t' l with
    | addedStr :: _ :: _ :: _ => if addedStr == "-" then some 0 else pyInt addedStr
    | _ => none
  else none

/-- `ReviewednessMetric._analyze_git_history` (src/metrics/reviewedness.py
lines 111-141): non-zero exit, timeout, missing tool and any raised error all
yield the `(-1, -1)` error pair. -/
def analyzeGitHistory (env : GitEnv) (repoPath : String) : ℤ × ℤ :=
  match env.gitLog repoPath with
  | GitLogOutcome.completed rc out _ =>
    if rc ≠ 0 then (-1, -1) else parseGitLogOutput env.fileSize repoPath out
  | _ => (-1, -1)

/-- The score computed from `(reviewed_lines, total_lines)` in
`_calculate_reviewedness_score_sync` lines 84-99: `(-1, -1)` error pair ⇒
`-1.0`; no code lines ⇒ `0.0`; otherwise the ratio. -/
def scoreFromCounts (rt : ℤ × ℤ) : ℚ :=
  if rt.1 = -1 ∧ rt.2 = -1 then -1
  else if rt.2 = 0 then 0
  else (rt.1 : ℚ) / (rt.2 : ℚ)

/-- `ReviewednessMetric._calculate_reviewedness_score_sync`
(src/metrics/reviewedness.py lines 64-109), with the set of live temporary
clone directories threaded explicitly so that the `finally:
git_inspector.cleanup()` obligation is visible: the returned list is the
filesystem state after the `finally` block.  Only the first element of
`code_repos` is examined (`context.code_repos[:1]`); a clone failure falls
through the loop to the final `return -1.0`. -/
def reviewednessSyncFS (env : GitEnv) (ctx : ModelContext) (fs : List String) :
    ℚ × List String :=
  match ctx.code_repos with
  | [] => (-1, fs)
  | repo :: _ =>
    match env.cloneRepo repo with
    | none => (-1, fs)
    | some path =>
      let fs1 := path :: fs
      (scoreFromCounts (analyzeGitHistory env path), fs1.erase path)

/-- The score component of the sync reviewedness computation. -/
def calculateReviewednessScoreSync (env : GitEnv) (ctx : ModelContext) : ℚ :=
  (reviewednessSyncFS env ctx []).1

/-- The clone directory the sync computation would create, if any. -/
def clonedPath (env : GitEnv) (ctx : ModelContext) : Option String :=
  match ctx.code_repos with
  | [] => none
  | repo :: _ => env.cloneRepo repo

/-- `ReviewednessMetric.compute` (src/metrics/reviewedness.py lines 44-62):
wraps the sync score in a `MetricResult`, which passes through pydantic
validation (`mkMetricResult`). -/
def reviewednessCompute (env : GitEnv) (ctx : ModelContext) (latency : ℤ) :
    Except String MetricResult :=
  mkMetricResult (calculateReviewednessScoreSync env ctx) latency

/-! ## Sandboxed reproducibility checker (`src/metrics/Reproducibility.py`) -/

/-- Substring test on character lists (Python's `in` operator / literal
regex fragments). -/
def hasSub (pat : List Char) : List Char → Bool
  | [] => pat.isEmpty
  | c :: t => pat.isPrefixOf (c :: t) || hasSub pat t

/-- Case-sensitive substring test on strings (Python `pat in hay`). -/
def hasSubstrStr (hay pat : String) : Bool := hasSub pat.data hay.data

/-- Case-insensitive substring test (a literal pattern under
`re.search(..., re.IGNORECASE)`). -/
def containsCI (hay pat : String) : Bool :=
  hasSub (pat.data.map Char.toLower) (hay.data.map Char.toLower)

/-- After `\s*`, match a given (non-whitespace) character. -/
def wsStarThen (target : Char) : List Char → Bool
  | [] => false
  | c :: rest => if c.isWhitespace then wsStarThen target rest else c == target

/-- `\s+` then a given character. -/
def wsPlusThen (target : Char) : List Char → Bool
  | [] => false
  | c :: rest => c.isWhitespace && wsStarThen target rest

/-- `rm\s+-` / `rm\s+/` (case-insensitive on the letters). -/
def matchRmWsThen (target : Char) (hay : String) : Bool :=
  scanAny
    (fun l =>
      match l with
      | r :: m :: rest =>
        (r == 'r' || r == 'R') && (m == 'm' || m == 'M') && wsPlusThen target rest
      | _ => false)
    hay.toList

/-- The backquote character (the shell command-substitution metacharacter
blocked by the blacklist). -/
def backquote : Char := Char.ofNat 96

/-- `DANGEROUS_PATTERNS` (src/metrics/Reproducibility.py lines 35-53): each
entry is the regex source string paired with its matcher under
`re.IGNORECASE`. -/
def dangerousPatterns : List (String × (String → Bool)) :=
  [("os\\.system", fun c => containsCI c "os.system"),
   ("subprocess\\.", fun c => containsCI c "subprocess."),
   ("exec\\(", fun c => containsCI c "exec("),
   ("eval\\(", fun c => containsCI c "eval("),
   ("__import__", fun c => containsCI c "__import__"),
   ("open\\(", fun c => containsCI c "open("),
   ("requests\\.", fun c => containsCI c "requests."),
   ("urllib\\.", fun c => containsCI c "urllib."),
   ("socket\\.", fun c => containsCI c "socket."),
   ("rm\\s+-", fun c => matchRmWsThen '-' c),
   ("rm\\s+/", fun c => matchRmWsThen '/' c),
   (">", fun c => containsCI c ">"),
   ("\\|", fun c => containsCI c "|"),
   ("&&", fun c => containsCI c "&&"),
   (";", fun c => containsCI c ";"),
   ("backquote", fun c => hasSub [backquote] c.toList),
   ("\\$\\(", fun c => containsCI c "$(")]

/-- `ReproducibilityMetric._is_code_safe`: safe iff no dangerous pattern
matches. -/
def isCodeSafe (code : String) : Bool :=
  !(dangerousPatterns.any (fun p => p.2 code))

/-- The `matched_patterns` list computed by `_log_security_violation` for the
audit-trail log line. -/
def matchedPatterns (code : String) : List String :=
  (dangerousPatterns.filter (fun p => p.2 code)).map (fun p => p.1)

/-! ### Fenced code-block extraction

`_extract_code_blocks` runs `re.findall(r'```(?:python|py)\s*\n(.*?)```',
content, re.DOTALL | re.IGNORECASE)`.  The scanner below reproduces
`re.findall`: try a match at each position left-to-right, and continue after
the end of each match.  `wsNl` is the greedy-with-backtracking `\s*\n`
(consume whitespace up to and including the last newline of the run); the
capture is non-greedy (up to the first closing fence). -/

/-- The three-backquote fence token. -/
def fenceTok : List Char := "```".toList

/-- `\s*\n` with greedy backtracking: consume whitespace characters up to and
including the *last* newline of the leading whitespace run; fail if that run
contains no newline. -/
def wsNl : List Char → Option (List Char) → Option (List Char)
  | [], best => best
  | c :: rest, best =>
    if c = '\n' then wsNl rest (some rest)
    else if c.isWhitespace then wsNl rest best
    else best

/-- Non-greedy `(.*?)` up to the first closing fence: returns the capture and
the characters after the fence. -/
def takeUntilFence : List Char → Option (List Char × List Char)
  | [] => none
  | c :: t =>
    if fenceTok.isPrefixOf (c :: t) then some ([], (c :: t).drop 3)
    else
      match takeUntilFence t with
      | some (cap, rest) => some (c :: cap, rest)
      | none => none

/-- Attempt the whole pattern at the current position: opening fence,
language tag (`python` preferred over `py`, case-insensitive), `\s*\n`, then
the non-greedy capture up to the closing fence.  Returns the capture and the
remainder after the match. -/
def matchFenceAt (l : List Char) : Option (String × List Char) :=
  if fenceTok.isPrefixOf l then
    let afterTicks := l.drop 3
    let afterHeader :=
      match (matchLitCI "python".toList afterTicks).bind (fun r => wsNl r none) with
      | some rest => some rest
      | none => (matchLitCI "py".toList afterTicks).bind (fun r => wsNl r none)
    match afterHeader with
    | some rest =>
      match takeUntilFence rest with
      | some (cap, after) => some (String.mk cap, after)
      | none => none
    | none => none
  else none

/-- Fuelled scan for `re.findall`; every step consumes at least one
character, so fuel equal to the content length never runs out. -/
def extractAux : ℕ → List Char → List String
  | 0, _ => []
  | _ + 1, [] => []
  | fuel + 1, l@(_ :: t) =>
    match matchFenceAt l with
    | some (cap, rest) => cap :: extractAux fuel rest
    | none => extractAux fuel t

/-- `ReproducibilityMetric._extract_code_blocks`. -/
def extractCodeBlocks (content : String) : List String :=
  extractAux content.length content.toList

/-! ### Sandbox execution and auto-fixes -/

/-- Outcome of `subprocess.run([sys.executable, temp_file], timeout=...)`
on the wrapped script (external world): completion with exit code and
captured output, `TimeoutExpired`, or some other raised error (including a
failure to create the temp file). -/
inductive ExecOutcome where
  | completed (exitCode : ℤ) (stdout : String) (stderr : String)
  | timedOut
  | raised (msg : String)

/-- The result dict of `_execute_in_sandbox`; keys present only on some
branches are `Option`s. -/
structure SandboxResult where
  success : Bool
  stdout : Option String
  stderr : Option String
  error : Option String
deriving Repr, DecidableEq

/-- The process-execution collaborator: the outcome of running a script file
with the given wrapped source text. -/
structure SandboxEnv where
  run : String → ExecOutcome

/-- The indented user code inside `_create_execution_wrapper`. -/
def indentBlock (code : String) : String :=
  String.intercalate "\n" ((strSplitOnChar '\n' code).map (fun line => "    " ++ line))

/-- Fixed text before the user code in `_create_execution_wrapper`. -/
def wrapperPrefix : String :=
  "\nimport sys\n\n# Execute user code with error handling\ntry:\n"

/-- Fixed text after the user code in `_create_execution_wrapper`. -/
def wrapperSuffix : String :=
  "\nexcept Exception as e:\n    print(f\"Error: {e}\", file=sys.stderr)\n    sys.exit(1)\n"

/-- `ReproducibilityMetric._create_execution_wrapper` (the `timeout` argument
is documentation-only in the source and unused). -/
def executionWrapper (code : String) : String :=
  wrapperPrefix ++ indentBlock code ++ wrapperSuffix

/-- The branch analysis of `_execute_in_sandbox` (src/metrics/Reproducibility.py
lines 384-464): exit code 0 is success with bounded output; `TimeoutExpired`
and raised errors are defined failure results. -/
def sandboxResult : ExecOutcome → SandboxResult
  | ExecOutcome.completed rc out err =>
    ⟨rc == 0, some (strTake out 1000), some (strTake err 1000), none⟩
  | ExecOutcome.timedOut =>
    ⟨false, none, some "Execution exceeded time limit", some "timeout"⟩
  | ExecOutcome.raised msg =>
    ⟨false, none, some ("Execution error: " ++ msg), some msg⟩

/-- `_execute_in_sandbox` with the set of live temporary script files
threaded explicitly: the temp file is created, the subprocess runs, and the
`finally` block deletes the file on every branch; the returned list is the
filesystem state after the `finally` block. -/
def executeInSandboxFS (env : SandboxEnv) (scriptName code : String)
    (fs : List String) : SandboxResult × List String :=
  let fs1 := scriptName :: fs
  (sandboxResult (env.run (executionWrapper code)), fs1.erase scriptName)

/-- Does an unmodified (wrapper-only) run of the sample succeed? -/
def runsOk (env : SandboxEnv) (code : String) : Bool :=
  (sandboxResult (env.run (executionWrapper code))).success

/-- `_test_code_runs_safely`: true iff at least one safe block runs
successfully unmodified. -/
def testCodeRunsSafely (env : SandboxEnv) (blocks : List String) : Bool :=
  blocks.any (runsOk env)

/-- `module_name = imp.split()[-1].split('.')[0]` of
`_apply_safe_debugging_fixes`. -/
def moduleNameOf (imp : String) : String :=
  let ws := (pySplitWs imp).getLastD ""
  (strSplitOnChar '.' ws).headD ""

/-- `safe_imports` of `_apply_safe_debugging_fixes`. -/
def safeImports : List String :=
  ["import torch", "from transformers import AutoModel, AutoTokenizer",
   "import numpy as np"]

/-- The import-prepending loop of `_apply_safe_debugging_fixes`: an import is
prepended only when neither its module token nor the word "import" occurs in
the code so far. -/
def addImports (code : String) : String :=
  safeImports.foldl
    (fun fixed imp =>
      if !(hasSubstrStr fixed (moduleNameOf imp)) && !(hasSubstrStr fixed "import")
      then imp ++ "\n" ++ fixed
      else fixed)
    code

/-- The apostrophe character, for the `'model'` placeholder. -/
def singleQuote : String := Char.toString (Char.ofNat 39)

/-- The `placeholders` list of `_apply_safe_debugging_fixes`. -/
def placeholderList : List String :=
  ["model_name", "model_id", "\"model\"", singleQuote ++ "model" ++ singleQuote]

/-- The placeholder-substitution loop of `_apply_safe_debugging_fixes`. -/
def substitutePlaceholders (code modelId : String) : String :=
  placeholderList.foldl
    (fun fixed ph => pyReplace fixed ph ("\"" ++ modelId ++ "\"")) code

/-- The final try/except wrapping of `_apply_safe_debugging_fixes`. -/
def wrapTryExcept (code : String) : String :=
  "\ntry:\n" ++ indentBlock code ++
    "\nexcept Exception as e:\n    print(f\"Error: {e}\")\n"

/-- `ReproducibilityMetric._apply_safe_debugging_fixes`. -/
def applySafeDebuggingFixes (code modelId : String) : String :=
  wrapTryExcept (substitutePlaceholders (addImports code) modelId)

/-- `_test_code_with_debugging_safely`: true iff at least one safe block runs
successfully after the safe auto-fixes. -/
def testCodeWithDebugging (env : SandboxEnv) (blocks : List String)
    (modelId : String) : Bool :=
  blocks.any (fun c => runsOk env (applySafeDebuggingFixes c modelId))

/-- The safe blocks the scoring step works with. -/
def safeBlocksOf (content : String) : List String :=
  (extractCodeBlocks content).filter isCodeSafe

/-- `ReproducibilityMetric._calculate_reproducibility_score`
(src/metrics/Reproducibility.py lines 108-208).  `if not
context.readme_content` is Python truthiness: both `None` and the empty
string score 0.0. -/
def calculateReproducibilityScore (env : SandboxEnv) (ctx : ModelContext) : ℚ :=
  match ctx.readme_content with
  | none => 0
  | some content =>
    if content = "" then 0
    else
      let blocks := extractCodeBlocks content
      if blocks = [] then 0
      else
        let safeBlocks := blocks.filter isCodeSafe
        if safeBlocks = [] then 0
        else if testCodeRunsSafely env safeBlocks then 1
        else if testCodeWithDebugging env safeBlocks ctx.model_url.name then 1/2
        else 0

/-! ## Concrete values used by the witness theorems -/

/-- A concrete model reference. -/
def sampleURL : ParsedURL :=
  ⟨"https://huggingface.co/org/model", URLCategory.MODEL, "org/model",
   "huggingface", some "org", some "model"⟩

/-- A concrete linked code repository. -/
def codeURL : ParsedURL :=
  ⟨"https://github.com/org/repo", URLCategory.CODE, "org/repo", "github",
   some "org", some "repo"⟩

/-- A second concrete linked code repository. -/
def codeURL2 : ParsedURL :=
  ⟨"https://github.com/org/other", URLCategory.CODE, "org/other", "github",
   some "org", some "other"⟩

/-- A git environment in which every clone fails, git log times out and no
file exists. -/
def emptyGitEnv : GitEnv :=
  ⟨fun _ => none, fun _ => GitLogOutcome.timedOut, fun _ => none⟩

/-- A git environment whose clone succeeds and whose `git log` returns a
fixed two-commit history. -/
def sampleGitLog : String :=
  "abc|Merge pull request #12\n5\t0\ta.py\ndef|direct commit\n3\t1\tb.py"

/-- A git environment serving `sampleGitLog` for every repository. -/
def sampleGitEnv : GitEnv :=
  ⟨fun _ => some "/tmp/clone", fun _ => GitLogOutcome.completed 0 sampleGitLog "",
   fun _ => none⟩

/-- A context with no linked code repository. -/
def noRepoCtx : ModelContext := { model_url := sampleURL }

/-- A context with exactly one linked code repository. -/
def ctxOneRepo : ModelContext := { model_url := sampleURL, code_repos := [codeURL] }

/-- A context with two linked code repositories sharing the first entry with
`ctxOneRepo`. -/
def ctxTwoRepos : ModelContext :=
  { model_url := sampleURL, code_repos := [codeURL, codeURL2] }

/-- A sandbox in which every execution times out. -/
def timeoutSandbox : SandboxEnv := ⟨fun _ => ExecOutcome.timedOut⟩

/-- A sandbox in which every execution exits 0. -/
def happySandbox : SandboxEnv := ⟨fun _ => ExecOutcome.completed 0 "" ""⟩

/-- A context whose README carries one clean fenced Python sample. -/
def ctxCleanSample : ModelContext :=
  { model_url := sampleURL,
    readme_content := some "```python\nx = 1\n```" }

/-- A context whose README carries a single dangerous fenced sample. -/
def ctxUnsafeSample : ModelContext :=
  { model_url := sampleURL,
    readme_content := some "```python\nimport os\nos.system(\"ls\")\n```" }

/-- A context whose README carries an infinite-loop sample. -/
def ctxLoopSample : ModelContext :=
  { model_url := sampleURL,
    readme_content := some "```python\nwhile True:\n    pass\n```" }

/-! ## Helper lemmas -/

lemma foldl_netStep_eq (w : List (String × ℚ)) (rs : List (String × MetricResult)) :
    ∀ acc : ℚ × ℚ,
      rs.foldl (netStep w) acc =
        (acc.1 + ((applicableOf rs).map (fun p => p.2.score * weightOf w p.1)).sum,
         acc.2 + ((applicableOf rs).map (fun p => weightOf w p.1)).sum) := by
  induction rs with
  | nil => intro acc; simp [applicableOf]
  | cons p rs ih =>
    intro acc
    by_cases h1 : strEndsWith p.1 "_latency"
    · have hstep : netStep w acc p = acc := by simp [netStep, h1]
      have hfil : applicableOf (p :: rs) = applicableOf rs := by
        simp [applicableOf, h1]
      rw [List.foldl_cons, hstep, ih acc, hfil]
    · by_cases h2 : p.2.score < 0
      · have hstep : netStep w acc p = acc := by simp [netStep, h1, h2]
        have hfil : applicableOf (p :: rs) = applicableOf rs := by
          simp [applicableOf, h1, not_le.mpr h2]
        rw [List.foldl_cons, hstep, ih acc, hfil]
      · have hstep : netStep w acc p =
            (acc.1 + p.2.score * weightOf w p.1, acc.2 + weightOf w p.1) := by
          simp [netStep, h1, h2]
        have hfil : applicableOf (p :: rs) = p :: applicableOf rs := by
          simp [applicableOf, h1, not_lt.mp h2]
        rw [List.foldl_cons, hstep, ih _, hfil]
        simp [add_assoc]

lemma netScoreLoop_eq (w : List (String × ℚ)) (rs : List (String × MetricResult)) :
    netScoreLoop w rs =
      (((applicableOf rs).map (fun p => p.2.score * weightOf w p.1)).sum,
       ((applicableOf rs).map (fun p => weightOf w p.1)).sum) := by
  simpa using foldl_netStep_eq w rs (0, 0)

lemma clamp_unit_bounds (x : ℚ) : 0 ≤ max 0 (min 1 x) ∧ max 0 (min 1 x) ≤ 1 :=
  ⟨le_max_left _ _, max_le zero_le_one (min_le_left _ _)⟩

/-! ## C2 -/

/-- C2: `_calculate_net_score` always returns a value in `[0, 1]`; with a
nonzero total applicable weight it is the clamped weighted mean over the
applicable (non-sentinel, non-latency) entries with divisor equal to the sum
of their weights; with zero total applicable weight it falls back to the
clamped unweighted mean of the present scores; with no applicable metric at
all it returns 0. -/
theorem net_score_weighted_mean :
    ∀ (w : List (String × ℚ)) (rs : List (String × MetricResult)),
      (0 ≤ calculateNetScore w rs ∧ calculateNetScore w rs ≤ 1)
      ∧ (((applicableOf rs).map (fun p => weightOf w p.1)).sum ≠ 0 →
          calculateNetScore w rs =
            max 0 (min 1
              (((applicableOf rs).map (fun p => p.2.score * weightOf w p.1)).sum /
               ((applicableOf rs).map (fun p => weightOf w p.1)).sum)))
      ∧ (((applicableOf rs).map (fun p => weightOf w p.1)).sum = 0 →
          calculateNetScore w rs =
            max 0 (min 1
              ((presentScores rs).sum / ((max (presentScores rs).length 1 : ℕ) : ℚ))))
      ∧ (applicableOf rs = [] → calculateNetScore w rs = 0) := by
  intro w rs
  have hloop := netScoreLoop_eq w rs
  have hunfold : calculateNetScore w rs =
      max 0 (min 1
        (if ((applicableOf rs).map (fun p => weightOf w p.1)).sum = 0 then
          (presentScores rs).sum / ((max (presentScores rs).length 1 : ℕ) : ℚ)
        else
          ((applicableOf rs).map (fun p => p.2.score * weightOf w p.1)).sum /
            ((applicableOf rs).map (fun p => weightOf w p.1)).sum)) := by
    simp only [calculateNetScore, hloop]
  refine ⟨?_, ?_, ?_, ?_⟩
  · rw [hunfold]; exact clamp_unit_bounds _
  · intro hne; rw [hunfold, if_neg hne]
  · intro hz; rw [hunfold, if_pos hz]
  · intro hnil
    have hz : ((applicableOf rs).map (fun p => weightOf w p.1)).sum = 0 := by
      rw [hnil]; rfl
    have hp : presentScores rs = [] := by rw [presentScores, hnil]; rfl
    rw [hunfold, if_pos hz, hp]
    norm_num

/-- C2 witness: a concrete result map containing an applicable license score
and a not-applicable reviewedness sentinel has nonzero applicable weight, and
the theorem's weighted-mean branch applies to it. -/
theorem net_score_weighted_mean_witness :
    ((applicableOf [("license", (⟨1, 5⟩ : MetricResult)), ("reviewedness", ⟨-1, 3⟩)]).map
        (fun p => weightOf [("license", 1), ("reviewedness", 1)] p.1)).sum ≠ 0
    ∧ calculateNetScore [("license", 1), ("reviewedness", 1)]
        [("license", ⟨1, 5⟩), ("reviewedness", ⟨-1, 3⟩)] =
      max 0 (min 1
        (((applicableOf [("license", (⟨1, 5⟩ : MetricResult)), ("reviewedness", ⟨-1, 3⟩)]).map
            (fun p => p.2.score * weightOf [("license", 1), ("reviewedness", 1)] p.1)).sum /
         ((applicableOf [("license", (⟨1, 5⟩ : MetricResult)), ("reviewedness", ⟨-1, 3⟩)]).map
            (fun p => weightOf [("license", 1), ("reviewedness", 1)] p.1)).sum)) := by
  have happ : applicableOf [("license", (⟨1, 5⟩ : MetricResult)), ("reviewedness", ⟨-1, 3⟩)]
      = [("license", ⟨1, 5⟩)] := by
    have h1 : decide ((0 : ℚ) ≤ ((⟨1, 5⟩ : MetricResult)).score) = true :=
      decide_eq_true (by norm_num)
    have h2 : decide ((0 : ℚ) ≤ ((⟨-1, 3⟩ : MetricResult)).score) = false :=
      decide_eq_false (by norm_num)
    have h3 : decide ((1 : ℚ) ≤ 0) = false := decide_eq_false (by norm_num)
    simp [applicableOf, List.filter, h1, h2, h3,
      (by decide : strEndsWith "license" "_latency" = false),
      (by decide : strEndsWith "reviewedness" "_latency" = false)]
  have hw : weightOf [("license", (1 : ℚ)), ("reviewedness", 1)] "license" = 1 := rfl
  have hsum : ((applicableOf [("license", (⟨1, 5⟩ : MetricResult)),
      ("reviewedness", ⟨-1, 3⟩)]).map
        (fun p => weightOf [("license", 1), ("reviewedness", 1)] p.1)).sum = 1 := by
    rw [happ]
    simp [hw]
  refine ⟨by rw [hsum]; norm_num, ?_⟩
  exact (net_score_weighted_mean [("license", 1), ("reviewedness", 1)]
    [("license", ⟨1, 5⟩), ("reviewedness", ⟨-1, 3⟩)]).2.1 (by rw [hsum]; norm_num)

lemma filterMap_single {α β : Type} (f : α → Option β) (s t : List α) (a : α) (e : β)
    (hs : ∀ x ∈ s, f x = none) (ht : ∀ x ∈ t, f x = none) (ha : f a = some e) :
    (s ++ a :: t).filterMap f = [e] := by
  rw [List.filterMap_append, List.filterMap_eq_nil_iff.mpr hs, List.nil_append,
    List.filterMap_cons, ha, List.filterMap_eq_nil_iff.mpr ht]

lemma gateThresholds_half : ∀ p ∈ ingestQualityGateMetrics, p.2 = 1/2 := by
  intro p hp
  fin_cases hp <;> rfl

/-! ## C3 -/

/-- C3: the ingest quality gate passes when every gated metric sits exactly
at the 0.5 threshold (the comparison is strict `<`, i.e. the threshold is
inclusive); when exactly one gated metric scores 0.4 and every other gated
metric is at or above its threshold, the failing list is exactly one entry
with gap `-0.1`; and in general the gate passes iff the failing list is
empty. -/
theorem quality_gate_threshold_inclusive :
    (∀ scores : String → Option ℚ,
      (∀ p ∈ ingestQualityGateMetrics, scores p.1 = some (1/2)) →
      (applyQualityGate scores).1 = true)
    ∧ (∀ (scores : String → Option ℚ) (nm : String) (thr : ℚ),
        (nm, thr) ∈ ingestQualityGateMetrics →
        scores nm = some (2/5) →
        (∀ p ∈ ingestQualityGateMetrics, p.1 ≠ nm → ∃ v, scores p.1 = some v ∧ p.2 ≤ v) →
        (applyQualityGate scores).2 =
          [⟨nm, some (2/5), 1/2, some (-(1/10)), none⟩])
    ∧ (∀ scores : String → Option ℚ,
        (applyQualityGate scores).1 = true ↔ (applyQualityGate scores).2 = []) := by
  refine ⟨?_, ?_, ?_⟩
  · intro scores h
    have hnil : ingestQualityGateMetrics.filterMap (gateEntryFor scores) = [] := by
      refine List.filterMap_eq_nil_iff.mpr ?_
      intro p hp
      have hs := h p hp
      have hthr := gateThresholds_half p hp
      simp only [gateEntryFor, hs, hthr]
      norm_num
    simp [applyQualityGate, hnil]
  · intro scores nm thr hmem hnm hrest
    have hthr : thr = 1/2 := gateThresholds_half _ hmem
    subst hthr
    obtain ⟨s, t, hst⟩ := List.append_of_mem hmem
    have hnd : (ingestQualityGateMetrics.map Prod.fst).Nodup := by decide
    rw [hst, List.map_append, List.map_cons] at hnd
    have hmid := List.nodup_middle.mp hnd
    have hnotmem : nm ∉ (s.map Prod.fst ++ t.map Prod.fst) :=
      (List.nodup_cons.mp hmid).1
    have hnone : ∀ x ∈ ingestQualityGateMetrics, x.1 ≠ nm →
        gateEntryFor scores x = none := by
      intro x hx hne
      obtain ⟨v, hv, hge⟩ := hrest x hx hne
      by_cases hv1 : v = -1
      · simp [gateEntryFor, hv, hv1]
      · simp [gateEntryFor, hv, hv1, not_lt.mpr hge]
    have hsnone : ∀ x ∈ s, gateEntryFor scores x = none := by
      intro x hx
      refine hnone x (by rw [hst]; exact List.mem_append_left _ hx) ?_
      intro heq
      exact hnotmem (List.mem_append_left _ (heq ▸ List.mem_map_of_mem Prod.fst hx))
    have htnone : ∀ x ∈ t, gateEntryFor scores x = none := by
      intro x hx
      refine hnone x (by rw [hst]; exact List.mem_append_right _ (List.mem_cons_of_mem _ hx)) ?_
      intro heq
      exact hnotmem (List.mem_append_right _ (heq ▸ List.mem_map_of_mem Prod.fst hx))
    have hround1 : pythonRound3 (2/5) = 2/5 := by
      norm_num [pythonRound3, roundHalfEven]
    have hround2 : pythonRound3 (2/5 - 1/2) = -(1/10) := by
      norm_num [pythonRound3, roundHalfEven]
    have hE : gateEntryFor scores (nm, 1/2) =
        some ⟨nm, some (2/5), 1/2, some (-(1/10)), none⟩ := by
      simp only [gateEntryFor, hnm]
      rw [if_neg (by norm_num), if_pos (by norm_num)]
      rw [hround1, hround2]
    simp only [applyQualityGate]
    rw [hst]
    exact filterMap_single _ s t _ _ hsnone htnone hE
  · intro scores
    simp [applyQualityGate, List.isEmpty_iff]

/-- C3 witness: the all-at-threshold audit passes, and the audit with the
license metric at 0.4 and everything else at 0.5 fails with exactly the one
expected entry. -/
theorem quality_gate_threshold_witness :
    (applyQualityGate (fun _ => some (1/2))).1 = true
    ∧ (applyQualityGate
        (fun nm => if nm == "license" then some (2/5) else some (1/2))).2 =
      [⟨"license", some (2/5), 1/2, some (-(1/10)), none⟩] := by
  constructor
  · exact quality_gate_threshold_inclusive.1 _ (fun p _ => rfl)
  · refine quality_gate_threshold_inclusive.2.1 _ "license" (1/2)
      (List.mem_cons_of_mem _ (List.mem_cons_of_mem _ (List.mem_cons_self _ _))) rfl ?_
    intro p hp hne
    fin_cases hp <;> first
      | (exact absurd rfl hne)
      | (exact ⟨1/2, rfl, le_refl _⟩)

/-! ## C4 -/

/-- C4: the Scorer boundary (`_compute_metrics_parallel` with
`return_exceptions=True`) converts a raised exception into the zero-score
result `MetricResult(score=0.0, latency=0)` for that metric only: the result
list is index-for-index aligned with the outcome list, every exceptional
outcome becomes the zero-score result, every normal outcome passes through
unchanged, and (by the total return type) no exception propagates out of the
scoring phase. -/
theorem scorer_isolates_metric_failures :
    ∀ outcomes : List (String × Except String MetricResult),
      (computeMetricsParallel outcomes).length = outcomes.length
      ∧ (∀ nm e, (nm, Except.error e) ∈ outcomes →
          (nm, (⟨0, 0⟩ : MetricResult)) ∈ computeMetricsParallel outcomes)
      ∧ (∀ nm r, (nm, Except.ok r) ∈ outcomes →
          (nm, r) ∈ computeMetricsParallel outcomes)
      ∧ (∀ i : ℕ, ∀ h : i < outcomes.length,
          (computeMetricsParallel outcomes).get
              ⟨i, by simpa [computeMetricsParallel] using h⟩ =
            ((outcomes.get ⟨i, h⟩).1, defaultOnError (outcomes.get ⟨i, h⟩).2)) := by
  intro outcomes
  refine ⟨by simp [computeMetricsParallel], ?_, ?_, ?_⟩
  · intro nm e h
    exact List.mem_map_of_mem (fun p => (p.1, defaultOnError p.2)) h
  · intro nm r h
    exact List.mem_map_of_mem (fun p => (p.1, defaultOnError p.2)) h
  · intro i h
    simp [computeMetricsParallel]

/-- C4 witness: in a concrete evaluation where metric "a" raises and metric
"b" returns normally, "a" is zeroed and "b" is untouched. -/
theorem scorer_isolates_metric_failures_witness :
    ((("a", (⟨0, 0⟩ : MetricResult)) ∈
        computeMetricsParallel [("a", Except.error "boom"), ("b", Except.ok ⟨1, 3⟩)])
      ∧ (("b", (⟨1, 3⟩ : MetricResult)) ∈
        computeMetricsParallel [("a", Except.error "boom"), ("b", Except.ok ⟨1, 3⟩)])) := by
  have h := scorer_isolates_metric_failures
    [("a", Except.error "boom"), ("b", Except.ok ⟨1, 3⟩)]
  exact ⟨h.2.1 "a" "boom" (List.mem_cons_self _ _),
    h.2.2.1 "b" ⟨1, 3⟩ (List.mem_cons_of_mem _ (List.mem_cons_self _ _))⟩

/-! ## C1 -/

/-- C1 (code bug): for a context with no linked code repository the sync
reviewedness computation returns the -1.0 sentinel as specified, but
`compute` then wraps it in `MetricResult`, whose pydantic bound
`score >= 0.0` (src/models.py line 36) rejects it, so `compute` raises a
`ValidationError` instead of returning the sentinel; at the Scorer boundary
that exception becomes `MetricResult(score=0.0, latency=0)`, and that
substituted 0.0 IS counted in the weighted net-score denominator (weight
0.1 accrues), contradicting the claimed exclusion. -/
theorem reviewedness_sentinel_rejected_by_validation :
    ∀ (env : GitEnv) (ctx : ModelContext) (lat : ℤ), ctx.code_repos = [] →
      calculateReviewednessScoreSync env ctx = -1
      ∧ reviewednessCompute env ctx lat = Except.error "MetricResult validation failed"
      ∧ defaultOnError (reviewednessCompute env ctx lat) = ⟨0, 0⟩
      ∧ netScoreLoop defaultMetricWeights
          [("reviewedness", defaultOnError (reviewednessCompute env ctx lat))] =
          (0, 1/10) := by
  intro env ctx lat h
  have hsync : calculateReviewednessScoreSync env ctx = -1 := by
    simp [calculateReviewednessScoreSync, reviewednessSyncFS, h]
  have hcomp : reviewednessCompute env ctx lat =
      Except.error "MetricResult validation failed" := by
    rw [reviewednessCompute, hsync, mkMetricResult, if_neg]
    rintro ⟨h1, -⟩
    norm_num at h1
  have hdef : defaultOnError (reviewednessCompute env ctx lat) = ⟨0, 0⟩ := by
    rw [hcomp]; rfl
  refine ⟨hsync, hcomp, hdef, ?_⟩
  rw [hdef]
  have hw : weightOf defaultMetricWeights "reviewedness" = 1/10 := rfl
  have hend : strEndsWith "reviewedness" "_latency" = false := by decide
  simp [netScoreLoop, netStep, hw, hend]

/-- C1 witness: the concrete no-repository context exhibits the sentinel, the
validation error, the zero-score substitution and the counted weight. -/
theorem reviewedness_sentinel_rejected_witness :
    calculateReviewednessScoreSync emptyGitEnv noRepoCtx = -1
    ∧ reviewednessCompute emptyGitEnv noRepoCtx 7 =
        Except.error "MetricResult validation failed"
    ∧ defaultOnError (reviewednessCompute emptyGitEnv noRepoCtx 7) = ⟨0, 0⟩
    ∧ netScoreLoop defaultMetricWeights
        [("reviewedness", defaultOnError (reviewednessCompute emptyGitEnv noRepoCtx 7))] =
        (0, 1/10) :=
  reviewedness_sentinel_rejected_by_validation emptyGitEnv noRepoCtx 7 rfl

/-! ## Reproducibility helper lemmas -/

lemma safeBlocksOf_empty : safeBlocksOf "" = [] := rfl

lemma score_zero_of_no_safe (env : SandboxEnv) (ctx : ModelContext) (content : String)
    (hc : ctx.readme_content = some content) (hs : safeBlocksOf content = []) :
    calculateReproducibilityScore env ctx = 0 := by
  have hs' : (extractCodeBlocks content).filter isCodeSafe = [] := by
    simpa [safeBlocksOf] using hs
  by_cases hce : content = ""
  · simp [calculateReproducibilityScore, hc, hce]
  · by_cases hb : extractCodeBlocks content = []
    · simp [calculateReproducibilityScore, hc, hce, hb]
    · simp [calculateReproducibilityScore, hc, hce, hb, hs']

lemma noRun_score_zero (env : SandboxEnv) (ctx : ModelContext)
    (h : ∀ c, runsOk env c = false) : calculateReproducibilityScore env ctx = 0 := by
  cases hc : ctx.readme_content with
  | none => simp [calculateReproducibilityScore, hc]
  | some content =>
    by_cases hce : content = ""
    · simp [calculateReproducibilityScore, hc, hce]
    · by_cases hb : extractCodeBlocks content = []
      · simp [calculateReproducibilityScore, hc, hce, hb]
      · by_cases hs : (extractCodeBlocks content).filter isCodeSafe = []
        · simp [calculateReproducibilityScore, hc, hce, hb, hs]
        · have htest : testCodeRunsSafely env
              ((extractCodeBlocks content).filter isCodeSafe) = false := by
            simp [testCodeRunsSafely, h]
          have htd : testCodeWithDebugging env
              ((extractCodeBlocks content).filter isCodeSafe) ctx.model_url.name
              = false := by
            simp [testCodeWithDebugging, h]
          simp [calculateReproducibilityScore, hc, hce, hb, hs, htest, htd]

/-! ## C5 -/

/-- C5: through the reproducibility scoring pipeline on the safe blocks of
the documentation, an unmodified sandbox success scores 1.0, a success only
after the safe auto-fixes scores 0.5, and everything else scores 0.0; in
particular a missing README, an empty README, no extracted fenced Python
samples, or no surviving safe sample all score 0.0 (these cases consult the
sandbox environment not at all, hence are deterministic across calls). -/
theorem reproducibility_score_levels :
    ∀ (env : SandboxEnv) (ctx : ModelContext),
      (ctx.readme_content = none → calculateReproducibilityScore env ctx = 0)
      ∧ (ctx.readme_content = some "" → calculateReproducibilityScore env ctx = 0)
      ∧ (∀ content, ctx.readme_content = some content → extractCodeBlocks content = [] →
          calculateReproducibilityScore env ctx = 0)
      ∧ (∀ content, ctx.readme_content = some content → safeBlocksOf content = [] →
          calculateReproducibilityScore env ctx = 0)
      ∧ (∀ content, ctx.readme_content = some content → safeBlocksOf content ≠ [] →
          ((∃ b ∈ safeBlocksOf content, runsOk env b = true) →
              calculateReproducibilityScore env ctx = 1)
          ∧ (testCodeRunsSafely env (safeBlocksOf content) = false →
              (∃ b ∈ safeBlocksOf content,
                runsOk env (applySafeDebuggingFixes b ctx.model_url.name) = true) →
              calculateReproducibilityScore env ctx = 1/2)
          ∧ (testCodeRunsSafely env (safeBlocksOf content) = false →
              testCodeWithDebugging env (safeBlocksOf content) ctx.model_url.name = false →
              calculateReproducibilityScore env ctx = 0)) := by
  intro env ctx
  refine ⟨?_, ?_, ?_, ?_, ?_⟩
  · intro h; simp [calculateReproducibilityScore, h]
  · intro h; simp [calculateReproducibilityScore, h]
  · intro content hc hb
    by_cases hce : content = ""
    · simp [calculateReproducibilityScore, hc, hce]
    · simp [calculateReproducibilityScore, hc, hce, hb]
  · intro content hc hs
    exact score_zero_of_no_safe env ctx content hc hs
  · intro content hc hsne
    have hcne : content ≠ "" := by
      intro hE; exact hsne (hE ▸ safeBlocksOf_empty)
    have hbne : extractCodeBlocks content ≠ [] := by
      intro hb; exact hsne (by simp [safeBlocksOf, hb])
    have hsne' : (extractCodeBlocks content).filter isCodeSafe ≠ [] := by
      simpa [safeBlocksOf] using hsne
    refine ⟨?_, ?_, ?_⟩
    · rintro ⟨b, hb, hrun⟩
      have htest : testCodeRunsSafely env
          ((extractCodeBlocks content).filter isCodeSafe) = true := by
        rw [testCodeRunsSafely, List.any_eq_true]
        exact ⟨b, by simpa [safeBlocksOf] using hb, hrun⟩
      simp [calculateReproducibilityScore, hc, hcne, hbne, hsne', htest]
    · intro htest hex
      obtain ⟨b, hb, hrun⟩ := hex
      have htest' : testCodeRunsSafely env
          ((extractCodeBlocks content).filter isCodeSafe) = false := by
        simpa [safeBlocksOf] using htest
      have htd : testCodeWithDebugging env
          ((extractCodeBlocks content).filter isCodeSafe) ctx.model_url.name = true := by
        rw [testCodeWithDebugging, List.any_eq_true]
        exact ⟨b, by simpa [safeBlocksOf] using hb, hrun⟩
      simp [calculateReproducibilityScore, hc, hcne, hbne, hsne', htest', htd]
    · intro htest htd
      have htest' : testCodeRunsSafely env
          ((extractCodeBlocks content).filter isCodeSafe) = false := by
        simpa [safeBlocksOf] using htest
      have htd' : testCodeWithDebugging env
          ((extractCodeBlocks content).filter isCodeSafe) ctx.model_url.name = false := by
        simpa [safeBlocksOf] using htd
      simp [calculateReproducibilityScore, hc, hcne, hbne, hsne', htest', htd']

/-- C5 witness: a README with one clean sample scores 1.0 when the sandbox
succeeds, and a missing README scores 0.0. -/
theorem reproducibility_score_levels_witness :
    calculateReproducibilityScore happySandbox ctxCleanSample = 1
    ∧ calculateReproducibilityScore happySandbox noRepoCtx = 0 := by
  constructor
  · refine ((reproducibility_score_levels happySandbox ctxCleanSample).2.2.2.2
      "```python\nx = 1\n```" rfl (by decide)).1 ?_
    exact ⟨"x = 1\n", by decide, rfl⟩
  · exact (reproducibility_score_levels happySandbox noRepoCtx).1 rfl

/-! ## C6 -/

/-- C6: a sample matching any blacklisted dangerous pattern never enters the
safe-block list that the sandbox phases run (only safe blocks and their
fixed variants are ever executed); if every extracted sample is dangerous
the score is 0.0 for *every* sandbox environment — including one in which
every execution would succeed — and the matched-pattern list logged for such
a sample is never empty. -/
theorem dangerous_samples_never_sandboxed :
    (∀ (content b : String), isCodeSafe b = false → b ∉ safeBlocksOf content)
    ∧ (∀ (env : SandboxEnv) (ctx : ModelContext) (content : String),
        ctx.readme_content = some content →
        (∀ b ∈ extractCodeBlocks content, isCodeSafe b = false) →
        calculateReproducibilityScore env ctx = 0)
    ∧ (∀ b : String, isCodeSafe b = false → matchedPatterns b ≠ []) := by
  refine ⟨?_, ?_, ?_⟩
  · intro content b hbad hmem
    have h2 := (List.mem_filter.mp (by simpa [safeBlocksOf] using hmem)).2
    rw [hbad] at h2
    exact Bool.false_ne_true h2
  · intro env ctx content hc hall
    refine score_zero_of_no_safe env ctx content hc ?_
    simp only [safeBlocksOf]
    refine List.filter_eq_nil_iff.mpr ?_
    intro b hb
    simp [hall b hb]
  · intro b h hnil
    have hany : dangerousPatterns.any (fun p => p.2 b) = true := by
      simpa [isCodeSafe] using h
    obtain ⟨p, hp, hpm⟩ := List.any_eq_true.mp hany
    have hfil : dangerousPatterns.filter (fun p => p.2 b) = [] := by
      simpa [matchedPatterns] using hnil
    exact absurd (List.filter_eq_nil_iff.mp hfil p hp) (by simp [hpm])

/-- C6 witness: the `os.system` sample is excluded from the safe list, the
all-unsafe README scores 0.0 even under an always-succeeding sandbox, and
its matched-pattern list is nonempty. -/
theorem dangerous_samples_never_sandboxed_witness :
    ("import os\nos.system(\"ls\")\n" ∉
        safeBlocksOf "```python\nimport os\nos.system(\"ls\")\n```")
    ∧ calculateReproducibilityScore happySandbox ctxUnsafeSample = 0
    ∧ matchedPatterns "import os\nos.system(\"ls\")\n" ≠ [] := by
  refine ⟨dangerous_samples_never_sandboxed.1 _ _ (by decide),
    dangerous_samples_never_sandboxed.2.1 happySandbox ctxUnsafeSample
      "```python\nimport os\nos.system(\"ls\")\n```" rfl (by decide),
    dangerous_samples_never_sandboxed.2.2 _ (by decide)⟩

/-! ## C7 -/

/-- C7: the sandbox executor is total over every subprocess outcome — an
execution succeeds iff the subprocess completed with exit code 0, and the
`TimeoutExpired` outcome (an infinite-loop sample under the subprocess's own
`timeout=15` deadline) yields the defined failure result rather than a hang,
making that sample count as failed; a sandbox in which every run times out
still produces the defined score 0.0; and the execution wrapper is a fixed
prefix and suffix around the indented user code, neither of which mentions
`signal` — the subprocess timeout is the sole deadline mechanism. -/
theorem sandbox_timeout_yields_defined_result :
    (∀ o : ExecOutcome, (sandboxResult o).success = true ↔
        ∃ rc out err, o = ExecOutcome.completed rc out err ∧ rc = 0)
    ∧ sandboxResult ExecOutcome.timedOut =
        ⟨false, none, some "Execution exceeded time limit", some "timeout"⟩
    ∧ (∀ (env : SandboxEnv) (code : String),
        env.run (executionWrapper code) = ExecOutcome.timedOut →
        runsOk env code = false)
    ∧ (∀ (env : SandboxEnv) (ctx : ModelContext),
        (∀ s, env.run s = ExecOutcome.timedOut) →
        calculateReproducibilityScore env ctx = 0)
    ∧ (∀ code, executionWrapper code = wrapperPrefix ++ indentBlock code ++ wrapperSuffix)
    ∧ containsCI wrapperPrefix "signal" = false
    ∧ containsCI wrapperSuffix "signal" = false := by
  refine ⟨?_, rfl, ?_, ?_, fun _ => rfl, by decide, by decide⟩
  · intro o
    cases o with
    | completed rc out err =>
      simp only [sandboxResult]
      constructor
      · intro h
        exact ⟨rc, out, err, rfl, by simpa using h⟩
      · rintro ⟨rc', out', err', heq, hrc⟩
        obtain ⟨h1, h2, h3⟩ := ExecOutcome.completed.inj heq
        simp [h1, hrc]
    | timedOut => simp [sandboxResult]
    | raised msg => simp [sandboxResult]
  · intro env code h
    simp [runsOk, h, sandboxResult]
  · intro env ctx h
    refine noRun_score_zero env ctx ?_
    intro c
    simp [runsOk, h, sandboxResult]

/-- C7 witness: under the always-timing-out sandbox the infinite-loop sample
fails (it does not hang the model: the result is defined) and the whole
reproducibility score of the infinite-loop README is 0.0. -/
theorem sandbox_timeout_witness :
    runsOk timeoutSandbox "while True:\n    pass" = false
    ∧ calculateReproducibilityScore timeoutSandbox ctxLoopSample = 0 :=
  ⟨sandbox_timeout_yields_defined_result.2.2.1 timeoutSandbox "while True:\n    pass" rfl,
   sandbox_timeout_yields_defined_result.2.2.2.1 timeoutSandbox ctxLoopSample
     (fun _ => rfl)⟩

/-! ## C8 -/

/-- C8: on every exit path of the sandbox executor — success, non-zero exit,
timeout, raised error — the temporary script file created for the run is
deleted by the `finally` block, and on every exit path of the reviewedness
sync computation — no repository, clone failure, git failure, success — the
ephemeral clone is removed by `git_inspector.cleanup()` in its `finally`
block: the filesystem state after either call equals the state before it. -/
theorem temp_resources_always_released :
    (∀ (env : SandboxEnv) (scriptName code : String) (fs : List String),
        (executeInSandboxFS env scriptName code fs).2 = fs)
    ∧ (∀ (env : GitEnv) (ctx : ModelContext) (fs : List String),
        (reviewednessSyncFS env ctx fs).2 = fs) := by
  constructor
  · intro env scriptName code fs
    simp [executeInSandboxFS]
  · intro env ctx fs
    cases hc : ctx.code_repos with
    | nil => simp [reviewednessSyncFS, hc]
    | cons repo rest =>
      cases hcl : env.cloneRepo repo with
      | none => simp [reviewednessSyncFS, hc, hcl]
      | some path => simp [reviewednessSyncFS, hc, hcl]

/-! ## C9 -/

lemma parseGitLines_bounds (isCode : String → Bool) :
    ∀ (lines : List String) (r t : ℤ) (cur : Bool),
      0 ≤ r → r ≤ t →
      (∀ line ∈ lines, 0 ≤ (lineAdded line).getD 0) →
      0 ≤ (parseGitLines isCode lines r t cur).1
      ∧ (parseGitLines isCode lines r t cur).1 ≤ (parseGitLines isCode lines r t cur).2 := by
  intro lines
  induction lines with
  | nil => intro r t cur hr hrt _; exact ⟨hr, hrt⟩
  | cons line rest ih =>
    intro r t cur hr hrt hlines
    have hhead := hlines line (List.mem_cons_self _ _)
    have htail : ∀ l ∈ rest, 0 ≤ (lineAdded l).getD 0 :=
      fun l hl => hlines l (List.mem_cons_of_mem _ hl)
    by_cases h1 : pyStrip line == ""
    · simpa [parseGitLines, h1] using ih r t cur hr hrt htail
    · by_cases h3 : strContainsChar (pyStrip line) '\t'
      · rcases hsp : strSplitOnChar '\t' (pyStrip line) with
          _ | ⟨addedStr, _ | ⟨del, _ | ⟨fn, restParts⟩⟩⟩
        · simpa [parseGitLines, h1, h3, hsp] using ih r t cur hr hrt htail
        · simpa [parseGitLines, h1, h3, hsp] using ih r t cur hr hrt htail
        · simpa [parseGitLines, h1, h3, hsp] using ih r t cur hr hrt htail
        · by_cases h4 : isCode fn
          · rcases hparse : (if addedStr = "-" then (some 0 : Option ℤ) else pyInt addedStr)
              with _ | a
            · simpa [parseGitLines, h1, h3, hsp, h4, hparse] using
                ih r t cur hr hrt htail
            · have hla : lineAdded line = some a := by
                simp [lineAdded, h1, h3, hsp, hparse]
              have ha : 0 ≤ a := by
                rw [hla] at hhead
                simpa using hhead
              cases cur with
              | true =>
                simpa [parseGitLines, h1, h3, hsp, h4, hparse] using
                  ih (r + a) (t + a) true (by linarith) (by linarith) htail
              | false =>
                simpa [parseGitLines, h1, h3, hsp, h4, hparse] using
                  ih r (t + a) false hr (by linarith) htail
          · simpa [parseGitLines, h1, h3, hsp, h4] using ih r t cur hr hrt htail
      · by_cases hbar : strContainsChar (pyStrip line) '|'
        · simpa [parseGitLines, h1, h3, hbar] using
            ih r t (isReviewedCommit (splitFirstBar (pyStrip line)).2) hr hrt htail
        · simpa [parseGitLines, h1, h3, hbar] using ih r t cur hr hrt htail

/-- C9: on any well-formed git-log output (every numstat added field the
parser extracts is nonnegative, as genuine `git log --numstat` output
guarantees — the field is a digit run or `-`), the accumulated counters
satisfy `0 ≤ reviewedLines ≤ totalLines`; consequently `totalLines = 0`
yields score 0.0 and `totalLines > 0` yields the raw ratio
`reviewedLines / totalLines`, which lies in `[0, 1]` without any clamping. -/
theorem git_log_reviewed_lines_bounded :
    ∀ (env : GitEnv) (repoPath gitOutput : String) (r t : ℤ),
      parseGitLogOutput env.fileSize repoPath gitOutput = (r, t) →
      (∀ line ∈ strSplitOnChar '\n' (pyStrip gitOutput), 0 ≤ (lineAdded line).getD 0) →
      0 ≤ r ∧ r ≤ t
      ∧ (t = 0 → scoreFromCounts (r, t) = 0)
      ∧ (0 < t → scoreFromCounts (r, t) = (r : ℚ) / (t : ℚ)
          ∧ 0 ≤ scoreFromCounts (r, t) ∧ scoreFromCounts (r, t) ≤ 1) := by
  intro env repoPath gitOutput r t heq hwf
  have hb := parseGitLines_bounds (isCodeFileF env.fileSize repoPath)
    (strSplitOnChar '\n' (pyStrip gitOutput)) 0 0 false (le_refl 0) (le_refl 0) hwf
  rw [parseGitLogOutput] at heq
  rw [heq] at hb
  obtain ⟨hr, hrt⟩ := hb
  refine ⟨hr, hrt, ?_, ?_⟩
  · intro ht
    subst ht
    rw [scoreFromCounts, if_neg (by rintro ⟨-, h⟩; omega), if_pos rfl]
  · intro ht
    have hneg : ¬((r, t).1 = -1 ∧ (r, t).2 = -1) := by
      rintro ⟨-, h2⟩
      simp only at h2
      omega
    have htne : (r, t).2 ≠ 0 := by
      simp only
      omega
    have hsc : scoreFromCounts (r, t) = (r : ℚ) / (t : ℚ) := by
      rw [scoreFromCounts, if_neg hneg, if_neg htne]
    have htQ : (0 : ℚ) < (t : ℚ) := by exact_mod_cast ht
    refine ⟨hsc, ?_, ?_⟩
    · rw [hsc]
      exact div_nonneg (by exact_mod_cast hr) (le_of_lt htQ)
    · rw [hsc, div_le_one htQ]
      exact_mod_cast hrt

/-- C9 witness: on a concrete two-commit history (one reviewed commit adding
5 lines, one direct commit adding 3) the parser yields (5, 8) and the score
is 5/8, inside the unit interval. -/
theorem git_log_reviewed_lines_witness :
    scoreFromCounts (parseGitLogOutput sampleGitEnv.fileSize "/tmp/clone" sampleGitLog)
      = ((5 : ℤ) : ℚ) / ((8 : ℤ) : ℚ)
    ∧ 0 ≤ scoreFromCounts
        (parseGitLogOutput sampleGitEnv.fileSize "/tmp/clone" sampleGitLog)
    ∧ scoreFromCounts (parseGitLogOutput sampleGitEnv.fileSize "/tmp/clone" sampleGitLog)
      ≤ 1 := by
  have heq : parseGitLogOutput sampleGitEnv.fileSize "/tmp/clone" sampleGitLog =
      (5, 8) := by decide
  have h := git_log_reviewed_lines_bounded sampleGitEnv "/tmp/clone" sampleGitLog 5 8
    heq (by decide)
  have h4 := h.2.2.2 (by norm_num)
  rw [heq]
  exact ⟨h4.1, h4.2.1, h4.2.2⟩

/-! ## C10 -/

/-- C10: the reviewedness sync computation inspects only the first element
of `code_repos` — two contexts with the same (present) first repository get
the same score whatever their tails — and when cloning that first repository
fails the result is the -1.0 sentinel with no later repository attempted. -/
theorem reviewedness_first_repo_only :
    (∀ (env : GitEnv) (c₁ c₂ : ModelContext),
        c₁.code_repos ≠ [] → c₂.code_repos ≠ [] →
        c₁.code_repos.head? = c₂.code_repos.head? →
        calculateReviewednessScoreSync env c₁ = calculateReviewednessScoreSync env c₂)
    ∧ (∀ (env : GitEnv) (ctx : ModelContext) (repo : ParsedURL) (rest : List ParsedURL),
        ctx.code_repos = repo :: rest → env.cloneRepo repo = none →
        calculateReviewednessScoreSync env ctx = -1) := by
  constructor
  · intro env c₁ c₂ h₁ h₂ hh
    rcases e₁ : c₁.code_repos with _ | ⟨a, l₁⟩
    · exact absurd e₁ h₁
    rcases e₂ : c₂.code_repos with _ | ⟨b, l₂⟩
    · exact absurd e₂ h₂
    rw [e₁, e₂] at hh
    simp only [List.head?_cons, Option.some.injEq] at hh
    subst hh
    simp [calculateReviewednessScoreSync, reviewednessSyncFS, e₁, e₂]
  · intro env ctx repo rest hc hcl
    simp [calculateReviewednessScoreSync, reviewednessSyncFS, hc, hcl]

/-- C10 witness: with the clone-failing environment, the one-repository and
two-repository contexts sharing their first entry score identically, and the
score is the -1.0 sentinel. -/
theorem reviewedness_first_repo_only_witness :
    calculateReviewednessScoreSync emptyGitEnv ctxOneRepo =
      calculateReviewednessScoreSync emptyGitEnv ctxTwoRepos
    ∧ calculateReviewednessScoreSync emptyGitEnv ctxOneRepo = -1 :=
  ⟨reviewedness_first_repo_only.1 emptyGitEnv ctxOneRepo ctxTwoRepos
      (by simp [ctxOneRepo]) (by simp [ctxTwoRepos]) rfl,
   reviewedness_first_repo_only.2 emptyGitEnv ctxOneRepo codeURL [] rfl rfl⟩

end Registry
